import Mathlib

/-!
Verification of the resumable upgrade orchestrator
(`src/commands/upgrade/__init__.py`) and of the MySQL repository-setup
actor (`src/repos/system_upgrade/cloudlinux/actors/clmysqlrepositorysetup/
libraries/clmysqlrepositorysetup.py`) of the leapp-repository project.

The orchestrator is embedded as a pure function from an oracle `World`
(the results of the external collaborators: uid, audit store, workflow)
and the parsed CLI `Args` to a trace of observable events plus an
outcome.  The actor is embedded as a pure function from an oracle
`ActorWorld` (directory listing with parsed repofile contents, Governor
type, installed packages) to the list of produced messages, or an error
when the Python code would raise an uncaught exception.
-/

/-- Persisted/prepared run configuration.  Only the fields the
orchestrator inspects (the debug and verbose flags read by
`util.check_env_and_conf`) are modelled explicitly. -/
structure Config where
  debug : Bool
  verbose : Bool
deriving DecidableEq, Repr

/-- Parsed command-line arguments of `leapp upgrade`.  `only_with_tags`
and `resume_context` are `none` when absent from `args` (they are added
only by `rerun`). -/
structure Args where
  resume : Bool
  reboot : Bool
  only_with_tags : Option (List String)
  resume_context : Option String
deriving DecidableEq, Repr

/-- Oracle inputs of one `upgrade` invocation: the results returned by
the external collaborators the command calls into. -/
structure World where
  /-- `os.getuid()`. -/
  uid : Nat
  /-- `str(uuid.uuid4())`. -/
  freshContext : String
  /-- `util.prepare_configuration(args)`. -/
  preparedConfig : Config
  /-- `cfg.get('report', 'answerfile')`. -/
  answerfilePath : String
  /-- `cfg.get('report', 'userchoices')`. -/
  userchoicesPath : String
  /-- Result of `util.fetch_last_upgrade_context(resume_context)`:
  the stored execution context and its configuration, or `none` when no
  resumable execution exists. -/
  fetchLast : Option (String × Config)
  /-- Explicit `LEAPP_DEBUG` environment value, if set. -/
  envDebug : Option Bool
  /-- Explicit `LEAPP_VERBOSE` environment value, if set. -/
  envVerbose : Option Bool
  /-- The ordered list of phases recorded as completed for the resumed
  execution in the audit history. -/
  history : List String
  /-- `util.load_repositories()`: `none` on success, or the message of
  the raised `LeappError`. -/
  loadReposError : Option String
  /-- `workflow.errors` after the run returns. -/
  wfErrors : List String
  /-- `workflow.failure` after the run returns. -/
  wfFailure : Bool
deriving DecidableEq, Repr

/-- Observable events of one `upgrade` invocation, in execution order. -/
inductive Event where
  | handleOutputLevel
  | prepareConfiguration
  | storeExecution (context : String) (kind : String) (cfg : Config)
  | archiveLogfiles
  | setEnv (name : String) (value : String)
  | restoreEnvVars (context : String)
  | loadRepositories
  | processWhitelist
  | warnIfUnsupported
  | loadAnswers (path : String)
  | workflowRun (context : String) (skipPhasesUntil : Option String)
      (skipDialogs : Bool) (onlyWithTags : Option (List String))
  | saveAnswers (path : String)
  | reportErrors (errors : List String)
  | reportInhibitors (context : String)
  | generateReportFiles (context : String)
  | reportInfo (fail : Bool)
deriving DecidableEq, Repr

/-- Outcome of one `upgrade` invocation: normal return (the process then
exits with code 0), an explicit `sys.exit` with the given code, or a
raised `CommandError` with the given message (handled by the CLI
framework outside src/). -/
inductive Outcome where
  | ok
  | exited (code : Nat)
  | cmdError (msg : String)
deriving DecidableEq, Repr

/-- The process exit code an outcome yields: `none` for `CommandError`
(implementation-defined non-zero, decided by the CLI framework outside
src/), `some 0` for a normal return, `some n` for `sys.exit(n)`. -/
def processExitCode : Outcome → Option Nat
  | Outcome.ok => some 0
  | Outcome.exited n => some n
  | Outcome.cmdError _ => none

/-- Modelled from the spec: `util.check_env_and_conf` is code of this
repository that is not under src/ (`commands/upgrade/util.py`); per
spec section 4.2 each flag is computed as "explicit environment value OR
persisted configuration value OR disabled". -/
def check_env_and_conf (envVal : Option Bool) (confVal : Bool) : Bool :=
  envVal.getD false || confVal

/-- Modelled from the spec: `util.get_last_phase` is code of this
repository that is not under src/; per spec section 4.3 it returns the
name of the last phase recorded as completed for the execution, or
`none` if the execution never progressed past the start. -/
def get_last_phase (w : World) : Option String :=
  w.history.getLast?

/-- Tail of `upgrade` shared by the fresh and the resume path
(source lines 67-99): set the execution-identity variable, load
repositories, configure the workflow, set the locale, run the pipeline,
save answers and report. -/
def runTail (w : World) (a : Args) (tr : List Event) (context : String)
    (skip_phases_until : Option String) : List Event × Outcome :=
  let tr := tr ++ [Event.setEnv "LEAPP_EXECUTION_ID" context]
  match w.loadReposError with
  | some msg => (tr ++ [Event.loadRepositories], Outcome.cmdError msg)
  | none =>
    let tr := tr ++
      [Event.loadRepositories, Event.processWhitelist, Event.warnIfUnsupported,
       Event.loadAnswers w.answerfilePath,
       Event.setEnv "LC_ALL" "en_US.UTF-8", Event.setEnv "LANG" "en_US.UTF-8",
       Event.workflowRun context skip_phases_until true a.only_with_tags,
       Event.saveAnswers w.answerfilePath,
       Event.reportErrors w.wfErrors,
       Event.reportInhibitors context,
       Event.generateReportFiles context,
       Event.reportInfo w.wfFailure]
    (tr, if w.wfFailure then Outcome.exited 1 else Outcome.ok)

/-- Shallow embedding of the `upgrade` command
(`src/commands/upgrade/__init__.py`, lines 32-99). -/
def upgrade (w : World) (a : Args) : List Event × Outcome :=
  let tr := [Event.handleOutputLevel, Event.prepareConfiguration]
  if w.uid ≠ 0 then
    (tr, Outcome.cmdError "This command has to be run under the root user.")
  else if a.resume then
    match w.fetchLast with
    | none =>
      (tr, Outcome.cmdError
        "No previous upgrade run to continue, remove `--resume` from leapp invocation to start a new upgrade flow")
    | some (context, configuration) =>
      let d := check_env_and_conf w.envDebug configuration.debug
      let v := d || check_env_and_conf w.envVerbose configuration.verbose
      let tr := tr ++
        [Event.setEnv "LEAPP_DEBUG" (if d then "1" else "0"),
         Event.setEnv "LEAPP_VERBOSE" (if v then "1" else "0"),
         Event.restoreEnvVars context]
      runTail w a tr context (get_last_phase w)
  else
    let tr := tr ++
      [Event.storeExecution w.freshContext "upgrade" w.preparedConfig,
       Event.archiveLogfiles]
    runTail w a tr w.freshContext none

/-- Constructor test: execution-record store event. -/
def isStoreEvent : Event → Bool
  | Event.storeExecution _ _ _ => true
  | _ => false

/-- Constructor test: pipeline invocation event. -/
def isRunEvent : Event → Bool
  | Event.workflowRun _ _ _ _ => true
  | _ => false

/-- Constructor test: environment-checkpoint restore event. -/
def isRestoreEvent : Event → Bool
  | Event.restoreEnvVars _ => true
  | _ => false

/-- Constructor test: any environment-variable write. -/
def isSetEnvEvent : Event → Bool
  | Event.setEnv _ _ => true
  | _ => false

/-- Test for a write of the named environment variable. -/
def isSetEnvNamed (name : String) : Event → Bool
  | Event.setEnv n _ => decide (n = name)
  | _ => false

/-- Constructor test: answer-persisting event. -/
def isSaveEvent : Event → Bool
  | Event.saveAnswers _ => true
  | _ => false

/-- Events with effects beyond the process: durable writes, environment
mutation, pipeline phases, file generation.  Pure preparation, reads and
terminal reporting are not side effects. -/
def isSideEffect : Event → Bool
  | Event.storeExecution _ _ _ => true
  | Event.archiveLogfiles => true
  | Event.setEnv _ _ => true
  | Event.restoreEnvVars _ => true
  | Event.workflowRun _ _ _ _ => true
  | Event.saveAnswers _ => true
  | Event.generateReportFiles _ => true
  | _ => false

/-- `eventBefore p q tr` holds when the first `q`-event of `tr`, if any,
is strictly preceded by a `p`-event. -/
def eventBefore (p q : Event → Bool) : List Event → Bool
  | [] => true
  | e :: tr => if q e then false else if p e then true else eventBefore p q tr

/-- `noneAfterFirst q p tr` holds when no `p`-event occurs strictly
after the first `q`-event of `tr`. -/
def noneAfterFirst (q p : Event → Bool) : List Event → Bool
  | [] => true
  | e :: tr => if q e then tr.all (fun x => !(p x)) else noneAfterFirst q p tr

/-! ## String operations

Kernel-computable embeddings of the Python string operations the actor
uses (`in`, `endswith`, `startswith`, `split`, `replace`, `''.join`).
They are defined on the character lists underlying `String` so that
concrete runs evaluate by `decide`/`rfl`. -/

/-- `listStarts s pat`: `pat` is a prefix of `s`. -/
def listStarts : List Char → List Char → Bool
  | _, [] => true
  | [], _ :: _ => false
  | c :: cs, p :: ps => decide (c = p) && listStarts cs ps

/-- `listContainsAux pat s`: `pat` occurs somewhere in `s`. -/
def listContainsAux (pat : List Char) : List Char → Bool
  | [] => listStarts [] pat
  | c :: cs => listStarts (c :: cs) pat || listContainsAux pat cs

/-- Python `pat in s`. -/
def strContains (s pat : String) : Bool :=
  listContainsAux pat.data s.data

/-- Python `s.endswith(pat)`. -/
def strEndsWith (s pat : String) : Bool :=
  listStarts s.data.reverse pat.data.reverse

/-- Python `s.startswith(pat)`. -/
def strStartsWith (s pat : String) : Bool :=
  listStarts s.data pat.data

/-- Splitting worker: structural recursion on a fuel that starts above
the length of the remaining input, so the zero-fuel fallback is never
reached on the initial call. -/
def splitOnFuel (pat : List Char) : Nat → List Char → List Char → List (List Char)
  | 0, s, acc => [acc.reverse ++ s]
  | fuel + 1, s, acc =>
    match s with
    | [] => [acc.reverse]
    | c :: cs =>
      if listStarts s pat && !pat.isEmpty then
        acc.reverse :: splitOnFuel pat fuel (List.drop pat.length s) []
      else
        splitOnFuel pat fuel cs (c :: acc)

/-- Python `s.split(pat)` for a non-empty separator: the pieces between
non-overlapping left-to-right occurrences of `pat`, separators dropped. -/
def strSplitOn (s pat : String) : List String :=
  (splitOnFuel pat.data (s.data.length + 1) s.data []).map fun l => String.mk l

/-- Python `s.replace(old, new)` for a non-empty `old`: rejoin the
split pieces with `new`. -/
def strReplace (s old new : String) : String :=
  String.join (List.intersperse new (strSplitOn s old))

/-! ## MySQL repository-setup actor

Embedding of `clmysqlrepositorysetup.py`.  File-system reads, repofile
parsing and the helpers from `leapp.libraries.common` (code of the
repository that is not under src/) are oracle inputs in `ActorWorld`;
`api.produce` and `reporting.create_report` calls are accumulated in
order into a production list. -/

/-- One repository section of a parsed repofile
(`repofileutils.parse_repofile` output item). -/
structure Repo where
  repoid : String
  name : String
  baseurl : String
  enabled : Bool
deriving DecidableEq, Repr

/-- One file of `REPO_DIR` together with its parsed contents. -/
structure RepoFileEntry where
  filename : String
  data : List Repo
deriving DecidableEq, Repr

/-- Oracle inputs of one actor `process()` run. -/
structure ActorWorld where
  /-- `os.listdir(REPO_DIR)` with the parse result for each file. -/
  repoDirListing : List RepoFileEntry
  /-- `get_clmysql_type()` (Governor config, stable within the run). -/
  clmysqlType : Option String
  /-- `MODULE_STREAMS` lookup, already split at the colon. -/
  moduleStreams : String → Option (String × String)
  /-- `get_pkg_prefix` lookup. -/
  pkgPref : String → Option String
  /-- Package names from the consumed `InstalledRPM` messages. -/
  installedRpms : List String
  /-- `create_leapp_repofile_copy`: path of the copy for a repofile name. -/
  copyPath : String → String
  /-- `REPOFILE_SUFFIX` from `cl_repofileutils` (".repo"). -/
  repofileSuffix : String
  /-- `LEAPP_COPY_SUFFIX` from `cl_repofileutils`. -/
  leappCopySuffix : String

/-- Messages sent with `api.produce`, plus reports created with
`reporting.create_report` (identified by their title), in order. -/
inductive Produced where
  | customRepoFile (file : String)
  | customRepo (repoid : String) (name : String) (baseurl : String) (enabled : Bool)
  | rpmTasks (toUpgrade : List String) (modulesToEnable : List (String × String))
  | mysqlTypes (types : List String) (version : Option String)
  | report (title : String)
deriving DecidableEq, Repr

/-- Mutable state of `process()` while iterating over the repofiles.
`mysql_types` is the Python set, kept in first-insertion order (the
claims only use membership). -/
structure PState where
  mysql_types : List String
  clmysql_type : Option String
  custom_repo_msgs : List Produced
  produced : List Produced
deriving Repr

/-- Python `set.add`. -/
def addType (ts : List String) (t : String) : List String :=
  if t ∈ ts then ts else ts ++ [t]

def CL_MARKERS : List String := ["cl-mysql", "cl-mariadb", "cl-percona"]

def MARIA_MARKERS : List String := ["MariaDB"]

def MYSQL_MARKERS : List String := ["mysql-community"]

def OLD_MYSQL_VERSIONS : List String := ["5.7", "5.6", "5.5"]

/-- Repo mutation of the CloudLinux branch (lines 77-79). -/
def clTransform (r : Repo) : Repo :=
  { r with repoid := r.repoid ++ "-8",
           baseurl := strReplace r.baseurl "/cl$releasever/" "/cl8/" }

/-- CloudLinux branch of the per-file loop (lines 63-101). -/
def processClFile (w : ActorWorld) (st : PState) (name : String)
    (data : List Repo) : PState :=
  let data := data.map clTransform
  let hit := data.any fun r => r.enabled || decide (r.repoid = "mysqclient-8")
  let msgs := data.filterMap fun r =>
    if r.enabled || decide (r.repoid = "mysqclient-8") then
      some (Produced.customRepo r.repoid r.name r.baseurl true)
    else none
  let anyEnabled := data.any (fun r => r.enabled)
  { mysql_types := if anyEnabled then addType st.mysql_types "cloudlinux" else st.mysql_types,
    clmysql_type := if hit then w.clmysqlType else st.clmysql_type,
    custom_repo_msgs := st.custom_repo_msgs ++ msgs,
    produced := if anyEnabled then
        st.produced ++ [Produced.customRepoFile (w.copyPath name)]
      else st.produced }

/-- Repo mutation of the MariaDB branch (lines 112-115).  When the
baseurl holds no "yum", `url_parts[1]` raises `IndexError`. -/
def mariaTransform (r : Repo) : Except String Repo :=
  match strSplitOn r.baseurl "yum" with
  | [] => Except.error "list index out of range"
  | [_] => Except.error "list index out of range"
  | p0 :: p1 :: rest =>
    Except.ok { r with
      repoid := r.repoid ++ "-8",
      baseurl := String.join (p0 :: ("yum" ++ strReplace p1 "7" "8") :: rest) }

/-- The MariaDB per-repo loop, aborting at the first raised exception. -/
def mariaTransformList : List Repo → Except String (List Repo)
  | [] => Except.ok []
  | r :: rs =>
    match mariaTransform r with
    | Except.error e => Except.error e
    | Except.ok r2 =>
      match mariaTransformList rs with
      | Except.error e => Except.error e
      | Except.ok rs2 => Except.ok (r2 :: rs2)

/-- MariaDB branch of the per-file loop (lines 104-135). -/
def processMariaFile (w : ActorWorld) (st : PState) (name : String)
    (data : List Repo) : Except String PState :=
  match mariaTransformList data with
  | Except.error e => Except.error e
  | Except.ok data =>
    let msgs := data.filterMap fun r =>
      if r.enabled then
        some (Produced.customRepo r.repoid r.name r.baseurl r.enabled)
      else none
    let anyEnabled := data.any (fun r => r.enabled)
    Except.ok
      { mysql_types := if anyEnabled then addType st.mysql_types "mariadb" else st.mysql_types,
        clmysql_type := st.clmysql_type,
        custom_repo_msgs := st.custom_repo_msgs ++ msgs,
        produced := if anyEnabled then
            st.produced ++ [Produced.customRepoFile (w.copyPath name)]
          else st.produced }

/-- Repo mutation of the MySQL branch (lines 145-146). -/
def mysqlTransform (r : Repo) : Repo :=
  { r with repoid := r.repoid ++ "-8",
           baseurl := strReplace r.baseurl "/el/7/" "/el/8/" }

/-- MySQL branch of the per-file loop (lines 138-189).  Old-version
inhibitor reports are created inline, in repo order. -/
def processMysqlFile (w : ActorWorld) (st : PState) (name : String)
    (data : List Repo) : PState :=
  let data := data.map mysqlTransform
  let inlineReports := data.filterMap fun r =>
    if r.enabled && OLD_MYSQL_VERSIONS.any (fun v => strContains r.name v) then
      some (Produced.report "An old MySQL version will no longer be available in EL8")
    else none
  let msgs := data.filterMap fun r =>
    if r.enabled then
      some (Produced.customRepo r.repoid r.name r.baseurl r.enabled)
    else none
  let anyEnabled := data.any (fun r => r.enabled)
  { mysql_types := if anyEnabled then addType st.mysql_types "mysql" else st.mysql_types,
    clmysql_type := st.clmysql_type,
    custom_repo_msgs := st.custom_repo_msgs ++ msgs,
    produced := st.produced ++ inlineReports ++
      (if anyEnabled then [Produced.customRepoFile (w.copyPath name)] else []) }

/-- The body of the `for repofile_full in os.listdir(REPO_DIR)` loop
(lines 51-189): skip non-repofiles and Leapp copies, then dispatch on
the first matching marker family. -/
def processRepofile (w : ActorWorld) (st : PState) (e : RepoFileEntry) :
    Except String PState :=
  if strEndsWith e.filename w.leappCopySuffix ||
     !(strEndsWith e.filename w.repofileSuffix) then
    Except.ok st
  else
    let name := e.filename.dropRight w.repofileSuffix.length
    if CL_MARKERS.any (fun m => strContains name m) then
      Except.ok (processClFile w st name e.data)
    else if MARIA_MARKERS.any (fun m => strContains name m) then
      processMariaFile w st name e.data
    else if MYSQL_MARKERS.any (fun m => strContains name m) then
      Except.ok (processMysqlFile w st name e.data)
    else
      Except.ok st

/-- The whole repofile loop. -/
def processFiles (w : ActorWorld) : PState → List RepoFileEntry → Except String PState
  | st, [] => Except.ok st
  | st, e :: rest =>
    match processRepofile w st e with
    | Except.error msg => Except.error msg
    | Except.ok st2 => processFiles w st2 rest

/-- `build_install_list(prefix)` (lines 28-43): installed package names
matching the prefix; empty when the prefix is falsy. -/
def build_install_list (w : ActorWorld) : Option String → List String
  | none => []
  | some pre =>
    if pre = "" then [] else w.installedRpms.filter fun n => strStartsWith n pre

/-- Epilogue of `process()` (lines 191-244): backup / multiple-types
reports, the deferred custom repository messages, the optional DNF
module enablement, and the final unconditional `InstalledMySqlTypes`. -/
def finishProcess (w : ActorWorld) (st : PState) : List Produced :=
  let withReports :=
    if st.mysql_types.length = 0 then st.produced
    else
      st.produced ++ [Produced.report "MySQL database backup recommended"] ++
      st.custom_repo_msgs ++
      (if st.mysql_types.length = 1 then []
       else [Produced.report "Multpile MySQL/MariaDB versions detected"])
  let withTasks :=
    if "cloudlinux" ∈ st.mysql_types then
      match st.clmysql_type with
      | none => withReports
      | some ct =>
        match w.moduleStreams ct with
        | none => withReports
        | some (modName, modStream) =>
          withReports ++
            [Produced.rpmTasks (build_install_list w (w.pkgPref ct))
              [(modName, modStream)]]
    else withReports
  withTasks ++ [Produced.mysqlTypes st.mysql_types st.clmysql_type]

/-- Shallow embedding of the actor entry point `process()`
(lines 46-244).  `Except.error` marks an uncaught Python exception. -/
def process (w : ActorWorld) : Except String (List Produced) :=
  match processFiles w { mysql_types := [], clmysql_type := none,
                         custom_repo_msgs := [], produced := [] } w.repoDirListing with
  | Except.error msg => Except.error msg
  | Except.ok st => Except.ok (finishProcess w st)

/-- Constructor test: the final `InstalledMySqlTypes` message. -/
def isMysqlTypesMsg : Produced → Bool
  | Produced.mysqlTypes _ _ => true
  | _ => false

/-- The file passes the name filter of the loop (not a Leapp copy, has
the repofile suffix). -/
def entryProcessed (w : ActorWorld) (e : RepoFileEntry) : Bool :=
  !(strEndsWith e.filename w.leappCopySuffix) &&
    strEndsWith e.filename w.repofileSuffix

/-- The repofile name with the suffix cut off (line 56). -/
def entryName (w : ActorWorld) (e : RepoFileEntry) : String :=
  e.filename.dropRight w.repofileSuffix.length

/-- The file is handled by the CloudLinux branch. -/
def entryClMatch (w : ActorWorld) (e : RepoFileEntry) : Bool :=
  entryProcessed w e &&
    CL_MARKERS.any (fun m => strContains (entryName w e) m)

/-- The file is handled by the MariaDB branch (the CloudLinux branch
takes priority in the elif chain). -/
def entryMariaMatch (w : ActorWorld) (e : RepoFileEntry) : Bool :=
  entryProcessed w e &&
    !(CL_MARKERS.any (fun m => strContains (entryName w e) m)) &&
    MARIA_MARKERS.any (fun m => strContains (entryName w e) m)

/-- The file is handled by the MySQL branch. -/
def entryMysqlMatch (w : ActorWorld) (e : RepoFileEntry) : Bool :=
  entryProcessed w e &&
    !(CL_MARKERS.any (fun m => strContains (entryName w e) m)) &&
    !(MARIA_MARKERS.any (fun m => strContains (entryName w e) m)) &&
    MYSQL_MARKERS.any (fun m => strContains (entryName w e) m)

/-- Some branch of the elif chain handles the file. -/
def entryAnyMatch (w : ActorWorld) (e : RepoFileEntry) : Bool :=
  entryClMatch w e || entryMariaMatch w e || entryMysqlMatch w e

/-- The file makes the actor record the given installation type: the
matching branch sees at least one enabled repository in it. -/
def detects (w : ActorWorld) (t : String) (e : RepoFileEntry) : Bool :=
  (if t = "cloudlinux" then entryClMatch w e
   else if t = "mariadb" then entryMariaMatch w e
   else if t = "mysql" then entryMysqlMatch w e
   else false) && e.data.any (fun r => r.enabled)

/-! ## Concrete scenarios -/

/-- A resumed run: stored execution "abc-123" with debug enabled, two
completed phases, a failing pipeline with two errors. -/
def wResume : World :=
  { uid := 0,
    freshContext := "11111111-2222-3333-4444-555555555555",
    preparedConfig := { debug := false, verbose := false },
    answerfilePath := "/var/log/leapp/answerfile",
    userchoicesPath := "/var/log/leapp/answerfile.userchoices",
    fetchLast := some ("abc-123", { debug := true, verbose := false }),
    envDebug := none,
    envVerbose := none,
    history := ["FactsCollection", "Download"],
    loadReposError := none,
    wfErrors := ["error one", "error two"],
    wfFailure := true }

def aResume : Args :=
  { resume := true, reboot := false, only_with_tags := none, resume_context := none }

/-- A fresh run with a clean pipeline result. -/
def wFresh : World :=
  { uid := 0,
    freshContext := "aaaa-bbbb-cccc-dddd",
    preparedConfig := { debug := false, verbose := true },
    answerfilePath := "/var/log/leapp/answerfile",
    userchoicesPath := "/var/log/leapp/answerfile.userchoices",
    fetchLast := none,
    envDebug := none,
    envVerbose := none,
    history := [],
    loadReposError := none,
    wfErrors := [],
    wfFailure := false }

def aFresh : Args :=
  { resume := false, reboot := true, only_with_tags := none, resume_context := none }

/-- The fresh scenario invoked by an unprivileged user. -/
def wNonRoot : World :=
  { wFresh with uid := 1000 }

/-- A MariaDB repofile whose baseurl holds no "yum" substring: the
MariaDB branch raises `IndexError` on `url_parts[1]`. -/
def wMariaCrash : ActorWorld :=
  { repoDirListing :=
      [{ filename := "MariaDB.repo",
         data := [{ repoid := "mariadb", name := "MariaDB",
                    baseurl := "https://archive.mariadb.org/mariadb-10.3/centos/7/x86_64",
                    enabled := true }] }],
    clmysqlType := none,
    moduleStreams := fun _ => none,
    pkgPref := fun _ => none,
    installedRpms := [],
    copyPath := fun n => "/etc/leapp/repos/" ++ n ++ "_leapp.repo",
    repofileSuffix := ".repo",
    leappCopySuffix := "_leapp.repo" }

/-- One well-formed enabled MariaDB repofile (the usual yum layout). -/
def wMariaOk : ActorWorld :=
  { wMariaCrash with
    repoDirListing :=
      [{ filename := "MariaDB.repo",
         data := [{ repoid := "mariadb", name := "MariaDB",
                    baseurl := "https://archive.mariadb.org/mariadb-10.3/yum/centos/7/x86_64",
                    enabled := true }] }] }

/-! ## Helper lemmas -/

theorem runTail_fst_err (w : World) (a : Args) (tr : List Event) (ctx : String)
    (skip : Option String) (msg : String) (h : w.loadReposError = some msg) :
    (runTail w a tr ctx skip).1 =
      tr ++ [Event.setEnv "LEAPP_EXECUTION_ID" ctx, Event.loadRepositories] := by
  simp [runTail, h]

theorem runTail_fst_ok (w : World) (a : Args) (tr : List Event) (ctx : String)
    (skip : Option String) (h : w.loadReposError = none) :
    (runTail w a tr ctx skip).1 =
      tr ++ [Event.setEnv "LEAPP_EXECUTION_ID" ctx,
        Event.loadRepositories, Event.processWhitelist, Event.warnIfUnsupported,
        Event.loadAnswers w.answerfilePath,
        Event.setEnv "LC_ALL" "en_US.UTF-8", Event.setEnv "LANG" "en_US.UTF-8",
        Event.workflowRun ctx skip true a.only_with_tags,
        Event.saveAnswers w.answerfilePath,
        Event.reportErrors w.wfErrors,
        Event.reportInhibitors ctx,
        Event.generateReportFiles ctx,
        Event.reportInfo w.wfFailure] := by
  simp [runTail, h]

/-- Inversion of a pipeline-invocation event: the preconditions that had
to hold for `workflow.run` to be reached, and the shape of its
arguments on each path. -/
theorem mem_run_upgrade (w : World) (a : Args) (ctx : String) (skip : Option String)
    (dlg : Bool) (tags : Option (List String))
    (h : Event.workflowRun ctx skip dlg tags ∈ (upgrade w a).1) :
    w.uid = 0 ∧ w.loadReposError = none ∧ dlg = true ∧ tags = a.only_with_tags ∧
    ((a.resume = true ∧ (∃ conf, w.fetchLast = some (ctx, conf)) ∧
        skip = get_last_phase w) ∨
     (a.resume = false ∧ ctx = w.freshContext ∧ skip = none)) := by
  by_cases hu : w.uid = 0
  · cases hres : a.resume with
    | true =>
      cases hf : w.fetchLast with
      | none => simp [upgrade, hu, hres, hf] at h
      | some p =>
        obtain ⟨ctx0, conf0⟩ := p
        cases hl : w.loadReposError with
        | some msg =>
          simp [upgrade, hu, hres, hf] at h
          rw [runTail_fst_err w a _ _ _ msg hl] at h
          simp at h
        | none =>
          simp [upgrade, hu, hres, hf] at h
          rw [runTail_fst_ok w a _ _ _ hl] at h
          simp at h
          obtain ⟨h1, h2, h3, h4⟩ := h
          exact ⟨hu, rfl, h3, h4, Or.inl ⟨rfl, ⟨conf0, by rw [h1]⟩, h2⟩⟩
    | false =>
      cases hl : w.loadReposError with
      | some msg =>
        simp [upgrade, hu, hres] at h
        rw [runTail_fst_err w a _ _ _ msg hl] at h
        simp at h
      | none =>
        simp [upgrade, hu, hres] at h
        rw [runTail_fst_ok w a _ _ _ hl] at h
        simp at h
        obtain ⟨h1, h2, h3, h4⟩ := h
        exact ⟨hu, rfl, h3, h4, Or.inr ⟨rfl, h1, h2⟩⟩
  · simp [upgrade, hu] at h

theorem upgrade_fst_fresh_err (w : World) (a : Args) (msg : String)
    (hroot : w.uid = 0) (hfresh : a.resume = false)
    (hl : w.loadReposError = some msg) :
    (upgrade w a).1 =
      [Event.handleOutputLevel, Event.prepareConfiguration,
       Event.storeExecution w.freshContext "upgrade" w.preparedConfig,
       Event.archiveLogfiles,
       Event.setEnv "LEAPP_EXECUTION_ID" w.freshContext,
       Event.loadRepositories] := by
  simp [upgrade, runTail, hroot, hfresh, hl]

theorem upgrade_fst_fresh_ok (w : World) (a : Args)
    (hroot : w.uid = 0) (hfresh : a.resume = false)
    (hl : w.loadReposError = none) :
    (upgrade w a).1 =
      [Event.handleOutputLevel, Event.prepareConfiguration,
       Event.storeExecution w.freshContext "upgrade" w.preparedConfig,
       Event.archiveLogfiles,
       Event.setEnv "LEAPP_EXECUTION_ID" w.freshContext,
       Event.loadRepositories, Event.processWhitelist, Event.warnIfUnsupported,
       Event.loadAnswers w.answerfilePath,
       Event.setEnv "LC_ALL" "en_US.UTF-8", Event.setEnv "LANG" "en_US.UTF-8",
       Event.workflowRun w.freshContext none true a.only_with_tags,
       Event.saveAnswers w.answerfilePath,
       Event.reportErrors w.wfErrors,
       Event.reportInhibitors w.freshContext,
       Event.generateReportFiles w.freshContext,
       Event.reportInfo w.wfFailure] := by
  simp [upgrade, runTail, hroot, hfresh, hl]

theorem upgrade_fst_resume_err (w : World) (a : Args) (ctx : String) (conf : Config)
    (msg : String) (hroot : w.uid = 0) (hres : a.resume = true)
    (hf : w.fetchLast = some (ctx, conf)) (hl : w.loadReposError = some msg) :
    (upgrade w a).1 =
      [Event.handleOutputLevel, Event.prepareConfiguration,
       Event.setEnv "LEAPP_DEBUG"
         (if check_env_and_conf w.envDebug conf.debug then "1" else "0"),
       Event.setEnv "LEAPP_VERBOSE"
         (if check_env_and_conf w.envDebug conf.debug ||
             check_env_and_conf w.envVerbose conf.verbose then "1" else "0"),
       Event.restoreEnvVars ctx,
       Event.setEnv "LEAPP_EXECUTION_ID" ctx,
       Event.loadRepositories] := by
  simp [upgrade, runTail, hroot, hres, hf, hl]

theorem upgrade_fst_resume_ok (w : World) (a : Args) (ctx : String) (conf : Config)
    (hroot : w.uid = 0) (hres : a.resume = true)
    (hf : w.fetchLast = some (ctx, conf)) (hl : w.loadReposError = none) :
    (upgrade w a).1 =
      [Event.handleOutputLevel, Event.prepareConfiguration,
       Event.setEnv "LEAPP_DEBUG"
         (if check_env_and_conf w.envDebug conf.debug then "1" else "0"),
       Event.setEnv "LEAPP_VERBOSE"
         (if check_env_and_conf w.envDebug conf.debug ||
             check_env_and_conf w.envVerbose conf.verbose then "1" else "0"),
       Event.restoreEnvVars ctx,
       Event.setEnv "LEAPP_EXECUTION_ID" ctx,
       Event.loadRepositories, Event.processWhitelist, Event.warnIfUnsupported,
       Event.loadAnswers w.answerfilePath,
       Event.setEnv "LC_ALL" "en_US.UTF-8", Event.setEnv "LANG" "en_US.UTF-8",
       Event.workflowRun ctx (get_last_phase w) true a.only_with_tags,
       Event.saveAnswers w.answerfilePath,
       Event.reportErrors w.wfErrors,
       Event.reportInhibitors ctx,
       Event.generateReportFiles ctx,
       Event.reportInfo w.wfFailure] := by
  simp [upgrade, runTail, hroot, hres, hf, hl]

/-- C1: whenever the pipeline is invoked on a resumed path, the
skip-until marker equals the last phase recorded as completed for the
resumed execution (so it always names a completed phase, and is absent
when the execution never completed a phase); on a fresh path the
pipeline is always invoked with no marker. -/
theorem upgrade_skip_until_correct (w : World) (a : Args) (ctx : String)
    (skip : Option String) (dlg : Bool) (tags : Option (List String))
    (h : Event.workflowRun ctx skip dlg tags ∈ (upgrade w a).1) :
    (a.resume = true →
      skip = get_last_phase w ∧ ∀ p, skip = some p → p ∈ w.history) ∧
    (a.resume = false → skip = none) := by
  obtain ⟨-, -, -, -, hcase⟩ := mem_run_upgrade w a ctx skip dlg tags h
  constructor
  · intro hres
    rcases hcase with ⟨-, -, hskip⟩ | ⟨hfalse, -, -⟩
    · refine ⟨hskip, fun p hp => ?_⟩
      have hlast : w.history.getLast? = some p := by
        rw [← get_last_phase, ← hskip, hp]
      exact List.mem_of_mem_getLast? hlast
    · rw [hres] at hfalse
      exact absurd hfalse (by simp)
  · intro hres
    rcases hcase with ⟨htrue, -, -⟩ | ⟨-, -, hskip⟩
    · rw [hres] at htrue
      exact absurd htrue (by simp)
    · exact hskip

theorem upgrade_skip_until_correct_witness :
    (aResume.resume = true →
      (some "Download" : Option String) = get_last_phase wResume ∧
      ∀ p, (some "Download" : Option String) = some p → p ∈ wResume.history) ∧
    (aResume.resume = false → (some "Download" : Option String) = none) :=
  upgrade_skip_until_correct wResume aResume "abc-123" (some "Download") true none
    (by decide)

/-- C2: on a fresh invocation past the permission check, the new
execution record (generated id, kind "upgrade", prepared configuration)
is stored; every stored record has exactly those fields; and the store
strictly precedes any pipeline invocation in the trace. -/
theorem upgrade_fresh_stores_before_run (w : World) (a : Args)
    (hroot : w.uid = 0) (hfresh : a.resume = false) :
    Event.storeExecution w.freshContext "upgrade" w.preparedConfig ∈ (upgrade w a).1 ∧
    (∀ c k cfg, Event.storeExecution c k cfg ∈ (upgrade w a).1 →
        c = w.freshContext ∧ k = "upgrade" ∧ cfg = w.preparedConfig) ∧
    eventBefore isStoreEvent isRunEvent (upgrade w a).1 = true := by
  cases hl : w.loadReposError with
  | some msg =>
    rw [upgrade_fst_fresh_err w a msg hroot hfresh hl]
    refine ⟨by simp, ?_, by simp [eventBefore, isStoreEvent, isRunEvent]⟩
    intro c k cfg hmem
    simp only [List.mem_cons, List.not_mem_nil, or_false] at hmem
    rcases hmem with h | h | h | h | h | h <;> first
      | exact Event.noConfusion h
      | (injection h with h1 h2 h3; exact ⟨h1, h2, h3⟩)
  | none =>
    rw [upgrade_fst_fresh_ok w a hroot hfresh hl]
    refine ⟨by simp, ?_, by simp [eventBefore, isStoreEvent, isRunEvent]⟩
    intro c k cfg hmem
    simp only [List.mem_cons, List.not_mem_nil, or_false] at hmem
    rcases hmem with h|h|h|h|h|h|h|h|h|h|h|h|h|h|h|h|h <;> first
      | exact Event.noConfusion h
      | (injection h with h1 h2 h3; exact ⟨h1, h2, h3⟩)

theorem upgrade_fresh_stores_before_run_witness :
    Event.storeExecution wFresh.freshContext "upgrade" wFresh.preparedConfig ∈
      (upgrade wFresh aFresh).1 ∧
    (∀ c k cfg, Event.storeExecution c k cfg ∈ (upgrade wFresh aFresh).1 →
        c = wFresh.freshContext ∧ k = "upgrade" ∧ cfg = wFresh.preparedConfig) ∧
    eventBefore isStoreEvent isRunEvent (upgrade wFresh aFresh).1 = true :=
  upgrade_fresh_stores_before_run wFresh aFresh rfl rfl

/-- C3: resuming when no stored upgrade execution is found raises the
no-resumable-execution CommandError, and the trace holds neither an
execution-record store nor a pipeline invocation. -/
theorem upgrade_resume_no_execution (w : World) (a : Args)
    (hroot : w.uid = 0) (hres : a.resume = true) (hnone : w.fetchLast = none) :
    (upgrade w a).2 = Outcome.cmdError
      "No previous upgrade run to continue, remove `--resume` from leapp invocation to start a new upgrade flow" ∧
    ∀ e ∈ (upgrade w a).1, isStoreEvent e = false ∧ isRunEvent e = false := by
  refine ⟨by simp [upgrade, hroot, hres, hnone], ?_⟩
  have htr : (upgrade w a).1 = [Event.handleOutputLevel, Event.prepareConfiguration] := by
    simp [upgrade, hroot, hres, hnone]
  rw [htr]
  intro e he
  simp only [List.mem_cons, List.not_mem_nil, or_false] at he
  rcases he with rfl | rfl
  · exact ⟨rfl, rfl⟩
  · exact ⟨rfl, rfl⟩

theorem upgrade_resume_no_execution_witness :
    (upgrade wFresh aResume).2 = Outcome.cmdError
      "No previous upgrade run to continue, remove `--resume` from leapp invocation to start a new upgrade flow" ∧
    ∀ e ∈ (upgrade wFresh aResume).1, isStoreEvent e = false ∧ isRunEvent e = false :=
  upgrade_resume_no_execution wFresh aResume rfl rfl rfl

/-- C4: on a resumed invocation with a found execution, the trace sets
LEAPP_DEBUG to "1" exactly when the explicit environment value or the
persisted configuration enables debug (to "0" otherwise), sets
LEAPP_VERBOSE to "1" exactly when debug is enabled or the explicit
environment value or the persisted configuration enables verbose (to
"0" otherwise) — always one of the two canonical strings — and debug
enabled forces verbose enabled. -/
theorem upgrade_resume_debug_verbose (w : World) (a : Args) (ctx : String) (conf : Config)
    (hroot : w.uid = 0) (hres : a.resume = true) (hf : w.fetchLast = some (ctx, conf)) :
    (∀ x, Event.setEnv "LEAPP_DEBUG" x ∈ (upgrade w a).1 ↔
        x = (if w.envDebug.getD false || conf.debug then "1" else "0")) ∧
    (∀ x, Event.setEnv "LEAPP_VERBOSE" x ∈ (upgrade w a).1 ↔
        x = (if (w.envDebug.getD false || conf.debug) ||
               (w.envVerbose.getD false || conf.verbose) then "1" else "0")) ∧
    ((w.envDebug.getD false || conf.debug) = true →
      ((w.envDebug.getD false || conf.debug) ||
        (w.envVerbose.getD false || conf.verbose)) = true) := by
  refine ⟨?_, ?_, fun hd => by simp [hd]⟩ <;> intro x <;>
    cases hl : w.loadReposError <;>
      [rw [upgrade_fst_resume_ok w a ctx conf hroot hres hf hl];
       rw [upgrade_fst_resume_err w a ctx conf _ hroot hres hf hl];
       rw [upgrade_fst_resume_ok w a ctx conf hroot hres hf hl];
       rw [upgrade_fst_resume_err w a ctx conf _ hroot hres hf hl]] <;>
    simp [check_env_and_conf]

theorem upgrade_resume_debug_verbose_witness :
    (∀ x, Event.setEnv "LEAPP_DEBUG" x ∈ (upgrade wResume aResume).1 ↔
        x = (if wResume.envDebug.getD false || Config.debug { debug := true, verbose := false } then "1" else "0")) ∧
    (∀ x, Event.setEnv "LEAPP_VERBOSE" x ∈ (upgrade wResume aResume).1 ↔
        x = (if (wResume.envDebug.getD false || Config.debug { debug := true, verbose := false }) ||
               (wResume.envVerbose.getD false || Config.verbose { debug := true, verbose := false }) then "1" else "0")) ∧
    ((wResume.envDebug.getD false || Config.debug { debug := true, verbose := false }) = true →
      ((wResume.envDebug.getD false || Config.debug { debug := true, verbose := false }) ||
        (wResume.envVerbose.getD false || Config.verbose { debug := true, verbose := false })) = true) :=
  upgrade_resume_debug_verbose wResume aResume "abc-123" { debug := true, verbose := false }
    rfl rfl rfl

/-- C5: whenever the pipeline run returns (a workflowRun event is in
the trace), the trace also saves the collected answers to the
answerfile and emits the error report, the inhibitor report, the
generated report files and the final summary — for every pipeline
result, failing or not — and the save comes after the run. -/
theorem upgrade_run_reports_and_saves (w : World) (a : Args) (ctx : String)
    (skip : Option String) (dlg : Bool) (tags : Option (List String))
    (h : Event.workflowRun ctx skip dlg tags ∈ (upgrade w a).1) :
    Event.saveAnswers w.answerfilePath ∈ (upgrade w a).1 ∧
    Event.reportErrors w.wfErrors ∈ (upgrade w a).1 ∧
    Event.reportInhibitors ctx ∈ (upgrade w a).1 ∧
    Event.generateReportFiles ctx ∈ (upgrade w a).1 ∧
    Event.reportInfo w.wfFailure ∈ (upgrade w a).1 ∧
    eventBefore isRunEvent isSaveEvent (upgrade w a).1 = true := by
  obtain ⟨hroot, hl, -, -, hcase⟩ := mem_run_upgrade w a ctx skip dlg tags h
  rcases hcase with ⟨hres, ⟨conf, hf⟩, -⟩ | ⟨hres, hctx, -⟩
  · rw [upgrade_fst_resume_ok w a ctx conf hroot hres hf hl]
    exact ⟨by simp, by simp, by simp, by simp, by simp,
      by simp [eventBefore, isRunEvent, isSaveEvent]⟩
  · subst hctx
    rw [upgrade_fst_fresh_ok w a hroot hres hl]
    exact ⟨by simp, by simp, by simp, by simp, by simp,
      by simp [eventBefore, isRunEvent, isSaveEvent]⟩

theorem upgrade_run_reports_and_saves_witness :
    Event.saveAnswers wResume.answerfilePath ∈ (upgrade wResume aResume).1 ∧
    Event.reportErrors wResume.wfErrors ∈ (upgrade wResume aResume).1 ∧
    Event.reportInhibitors "abc-123" ∈ (upgrade wResume aResume).1 ∧
    Event.generateReportFiles "abc-123" ∈ (upgrade wResume aResume).1 ∧
    Event.reportInfo wResume.wfFailure ∈ (upgrade wResume aResume).1 ∧
    eventBefore isRunEvent isSaveEvent (upgrade wResume aResume).1 = true :=
  upgrade_run_reports_and_saves wResume aResume "abc-123" (some "Download") true none
    (by decide)

/-- C6: whenever the pipeline run returns, the process exit code is 1
when the workflow reports failure and 0 otherwise. -/
theorem upgrade_exit_verdict (w : World) (a : Args) (ctx : String)
    (skip : Option String) (dlg : Bool) (tags : Option (List String))
    (h : Event.workflowRun ctx skip dlg tags ∈ (upgrade w a).1) :
    processExitCode (upgrade w a).2 = some (if w.wfFailure then 1 else 0) := by
  obtain ⟨hroot, hl, -, -, hcase⟩ := mem_run_upgrade w a ctx skip dlg tags h
  have hsnd : (upgrade w a).2 =
      if w.wfFailure then Outcome.exited 1 else Outcome.ok := by
    rcases hcase with ⟨hres, ⟨conf, hf⟩, -⟩ | ⟨hres, -, -⟩
    · simp [upgrade, runTail, hroot, hres, hf, hl]
    · simp [upgrade, runTail, hroot, hres, hl]
  rw [hsnd]
  cases w.wfFailure <;> rfl

theorem upgrade_exit_verdict_witness :
    processExitCode (upgrade wResume aResume).2 =
      some (if wResume.wfFailure then 1 else 0) :=
  upgrade_exit_verdict wResume aResume "abc-123" (some "Download") true none (by decide)

/-- C7: an invocation without root privilege raises the permission
CommandError, and no event of the trace is a side effect (only the
output-level handling and the configuration preparation ran). -/
theorem upgrade_nonroot_no_side_effects (w : World) (a : Args) (h : w.uid ≠ 0) :
    (upgrade w a).2 = Outcome.cmdError "This command has to be run under the root user." ∧
    ∀ e ∈ (upgrade w a).1, isSideEffect e = false := by
  refine ⟨by simp [upgrade, h], ?_⟩
  have htr : (upgrade w a).1 = [Event.handleOutputLevel, Event.prepareConfiguration] := by
    simp [upgrade, h]
  rw [htr]
  intro e he
  simp only [List.mem_cons, List.not_mem_nil, or_false] at he
  rcases he with rfl | rfl
  · rfl
  · rfl

theorem upgrade_nonroot_no_side_effects_witness :
    (upgrade wNonRoot aFresh).2 =
      Outcome.cmdError "This command has to be run under the root user." ∧
    ∀ e ∈ (upgrade wNonRoot aFresh).1, isSideEffect e = false :=
  upgrade_nonroot_no_side_effects wNonRoot aFresh (by decide)

/-- C8 counterexample: in the concrete resumed scenario `wResume`, the
LEAPP_DEBUG derivation event occurs, the checkpoint restore event
occurs, yet no restore precedes the first LEAPP_DEBUG write — the
derived variables are NOT computed after the restore, refuting the
claimed order. -/
theorem upgrade_restore_order_cex :
    Event.setEnv "LEAPP_DEBUG" "1" ∈ (upgrade wResume aResume).1 ∧
    Event.restoreEnvVars "abc-123" ∈ (upgrade wResume aResume).1 ∧
    eventBefore isRestoreEvent (isSetEnvNamed "LEAPP_DEBUG")
      (upgrade wResume aResume).1 = false := by
  decide

/-- C8 amended: on every resumed invocation with a found execution, the
derived debug and verbose variables are computed strictly BEFORE the
environment checkpoint restore (source lines 54-59 precede line 60),
and the restore does occur. -/
theorem upgrade_derivation_before_restore (w : World) (a : Args) (ctx : String)
    (conf : Config) (hroot : w.uid = 0) (hres : a.resume = true)
    (hf : w.fetchLast = some (ctx, conf)) :
    Event.restoreEnvVars ctx ∈ (upgrade w a).1 ∧
    eventBefore (isSetEnvNamed "LEAPP_DEBUG") isRestoreEvent (upgrade w a).1 = true ∧
    eventBefore (isSetEnvNamed "LEAPP_VERBOSE") isRestoreEvent (upgrade w a).1 = true := by
  cases hl : w.loadReposError with
  | some msg =>
    rw [upgrade_fst_resume_err w a ctx conf msg hroot hres hf hl]
    exact ⟨by simp, by simp [eventBefore, isSetEnvNamed, isRestoreEvent],
      by simp [eventBefore, isSetEnvNamed, isRestoreEvent]⟩
  | none =>
    rw [upgrade_fst_resume_ok w a ctx conf hroot hres hf hl]
    exact ⟨by simp, by simp [eventBefore, isSetEnvNamed, isRestoreEvent],
      by simp [eventBefore, isSetEnvNamed, isRestoreEvent]⟩

theorem upgrade_derivation_before_restore_witness :
    Event.restoreEnvVars "abc-123" ∈ (upgrade wResume aResume).1 ∧
    eventBefore (isSetEnvNamed "LEAPP_DEBUG") isRestoreEvent
      (upgrade wResume aResume).1 = true ∧
    eventBefore (isSetEnvNamed "LEAPP_VERBOSE") isRestoreEvent
      (upgrade wResume aResume).1 = true :=
  upgrade_derivation_before_restore wResume aResume "abc-123"
    { debug := true, verbose := false } rfl rfl rfl

/-- C9: whenever the pipeline is invoked, the execution-identity
variable was set to the (fresh or resumed) executionId and the locale
variables were force-set to the canonical locale strictly before the
invocation, every identity write carries exactly that id, and no
environment variable at all is written after the pipeline invocation. -/
theorem upgrade_identity_locale_discipline (w : World) (a : Args) (ctx : String)
    (skip : Option String) (dlg : Bool) (tags : Option (List String))
    (h : Event.workflowRun ctx skip dlg tags ∈ (upgrade w a).1) :
    Event.setEnv "LEAPP_EXECUTION_ID" ctx ∈ (upgrade w a).1 ∧
    (∀ x, Event.setEnv "LEAPP_EXECUTION_ID" x ∈ (upgrade w a).1 → x = ctx) ∧
    (a.resume = false → ctx = w.freshContext) ∧
    (a.resume = true → ∃ conf, w.fetchLast = some (ctx, conf)) ∧
    Event.setEnv "LC_ALL" "en_US.UTF-8" ∈ (upgrade w a).1 ∧
    Event.setEnv "LANG" "en_US.UTF-8" ∈ (upgrade w a).1 ∧
    eventBefore (isSetEnvNamed "LEAPP_EXECUTION_ID") isRunEvent (upgrade w a).1 = true ∧
    eventBefore (isSetEnvNamed "LC_ALL") isRunEvent (upgrade w a).1 = true ∧
    eventBefore (isSetEnvNamed "LANG") isRunEvent (upgrade w a).1 = true ∧
    noneAfterFirst isRunEvent isSetEnvEvent (upgrade w a).1 = true := by
  obtain ⟨hroot, hl, -, -, hcase⟩ := mem_run_upgrade w a ctx skip dlg tags h
  rcases hcase with ⟨hres, ⟨conf, hf⟩, -⟩ | ⟨hres, hctx, -⟩
  · rw [upgrade_fst_resume_ok w a ctx conf hroot hres hf hl]
    refine ⟨by simp, ?_, by simp [hres], fun _ => ⟨conf, hf⟩, by simp, by simp,
      by simp [eventBefore, isSetEnvNamed, isRunEvent],
      by simp [eventBefore, isSetEnvNamed, isRunEvent],
      by simp [eventBefore, isSetEnvNamed, isRunEvent],
      by simp [noneAfterFirst, isRunEvent, isSetEnvEvent]⟩
    intro x hx
    simp at hx
    exact hx
  · subst hctx
    rw [upgrade_fst_fresh_ok w a hroot hres hl]
    refine ⟨by simp, ?_, fun _ => rfl, by simp [hres], by simp, by simp,
      by simp [eventBefore, isSetEnvNamed, isRunEvent],
      by simp [eventBefore, isSetEnvNamed, isRunEvent],
      by simp [eventBefore, isSetEnvNamed, isRunEvent],
      by simp [noneAfterFirst, isRunEvent, isSetEnvEvent]⟩
    intro x hx
    simp at hx
    exact hx

theorem upgrade_identity_locale_discipline_witness :
    Event.setEnv "LEAPP_EXECUTION_ID" "abc-123" ∈ (upgrade wResume aResume).1 ∧
    (∀ x, Event.setEnv "LEAPP_EXECUTION_ID" x ∈ (upgrade wResume aResume).1 →
      x = "abc-123") ∧
    (aResume.resume = false → "abc-123" = wResume.freshContext) ∧
    (aResume.resume = true → ∃ conf, wResume.fetchLast = some ("abc-123", conf)) ∧
    Event.setEnv "LC_ALL" "en_US.UTF-8" ∈ (upgrade wResume aResume).1 ∧
    Event.setEnv "LANG" "en_US.UTF-8" ∈ (upgrade wResume aResume).1 ∧
    eventBefore (isSetEnvNamed "LEAPP_EXECUTION_ID") isRunEvent
      (upgrade wResume aResume).1 = true ∧
    eventBefore (isSetEnvNamed "LC_ALL") isRunEvent (upgrade wResume aResume).1 = true ∧
    eventBefore (isSetEnvNamed "LANG") isRunEvent (upgrade wResume aResume).1 = true ∧
    noneAfterFirst isRunEvent isSetEnvEvent (upgrade wResume aResume).1 = true :=
  upgrade_identity_locale_discipline wResume aResume "abc-123" (some "Download")
    true none (by decide)

/-! ## Actor lemmas -/

theorem addType_mem (ts : List String) (t t2 : String) :
    t ∈ addType ts t2 ↔ t ∈ ts ∨ t = t2 := by
  unfold addType
  split
  · constructor
    · exact Or.inl
    · rintro (h | rfl)
      · exact h
      · assumption
  · simp

theorem mariaTransform_enabled (r r2 : Repo) (h : mariaTransform r = Except.ok r2) :
    r2.enabled = r.enabled := by
  unfold mariaTransform at h
  cases hs : strSplitOn r.baseurl "yum" with
  | nil => rw [hs] at h; cases h
  | cons p0 rest =>
    cases rest with
    | nil => rw [hs] at h; cases h
    | cons p1 rest2 =>
      rw [hs] at h
      injection h with h2
      subst h2
      rfl

theorem mariaTransformList_any_enabled (data data2 : List Repo)
    (h : mariaTransformList data = Except.ok data2) :
    data2.any (fun r => r.enabled) = data.any (fun r => r.enabled) := by
  induction data generalizing data2 with
  | nil =>
    injection h with h2
    subst h2
    rfl
  | cons r rs ih =>
    unfold mariaTransformList at h
    cases hm : mariaTransform r with
    | error msg => rw [hm] at h; cases h
    | ok r2 =>
      rw [hm] at h
      cases hrest : mariaTransformList rs with
      | error msg => rw [hrest] at h; cases h
      | ok rs2 =>
        rw [hrest] at h
        injection h with h2
        subst h2
        simp [mariaTransform_enabled r r2 hm, ih rs2 hrest]

theorem filterMap_countP_zero (data : List Repo) (f : Repo → Option Produced)
    (hf : ∀ r m, f r = some m → isMysqlTypesMsg m = false) :
    (data.filterMap f).countP isMysqlTypesMsg = 0 := by
  rw [List.countP_eq_zero]
  intro m hm
  obtain ⟨r, -, hr⟩ := List.mem_filterMap.mp hm
  simp [hf r m hr]

theorem processRepofile_types_mem (w : ActorWorld) (st st2 : PState)
    (e : RepoFileEntry) (h : processRepofile w st e = Except.ok st2) (t : String) :
    t ∈ st2.mysql_types ↔ t ∈ st.mysql_types ∨ detects w t e = true := by
  unfold processRepofile at h
  by_cases hskip : (strEndsWith e.filename w.leappCopySuffix ||
      !(strEndsWith e.filename w.repofileSuffix)) = true
  · rw [if_pos hskip] at h
    injection h with h2
    subst h2
    have hproc : entryProcessed w e = false := by
      unfold entryProcessed
      rcases Bool.or_eq_true_iff.mp hskip with h1 | h1
      · simp [h1]
      · simp at h1
        simp [h1]
    have hd : detects w t e = false := by
      simp [detects, entryClMatch, entryMariaMatch, entryMysqlMatch, hproc]
    simp [hd]
  · rw [if_neg hskip] at h
    have hproc : entryProcessed w e = true := by
      unfold entryProcessed
      simp at hskip
      simp [hskip.1, hskip.2]
    by_cases hcl : CL_MARKERS.any
        (fun m => strContains (e.filename.dropRight w.repofileSuffix.length) m) = true
    · rw [if_pos hcl] at h
      injection h with h2
      subst h2
      have hclm : entryClMatch w e = true := by
        simp [entryClMatch, entryName, hproc, hcl]
      have hmar : entryMariaMatch w e = false := by
        simp [entryMariaMatch, entryName, hcl]
      have hmys : entryMysqlMatch w e = false := by
        simp [entryMysqlMatch, entryName, hcl]
      have henab : (e.data.map clTransform).any (fun r => r.enabled) =
          e.data.any (fun r => r.enabled) := by
        rw [List.any_map]
        rfl
      unfold processClFile
      simp only [henab]
      by_cases hen : e.data.any (fun r => r.enabled) = true
      · rw [if_pos hen]
        rw [addType_mem]
        by_cases ht : t = "cloudlinux" <;>
          simp [detects, hclm, hmar, hmys, hen, ht]
      · rw [if_neg hen]
        simp only [Bool.not_eq_true] at hen
        simp [detects, hen]
    · rw [if_neg hcl] at h
      by_cases hma : MARIA_MARKERS.any
          (fun m => strContains (e.filename.dropRight w.repofileSuffix.length) m) = true
      · rw [if_pos hma] at h
        unfold processMariaFile at h
        cases hm : mariaTransformList e.data with
        | error msg => rw [hm] at h; cases h
        | ok data2 =>
          rw [hm] at h
          injection h with h2
          subst h2
          have hclm : entryClMatch w e = false := by
            simp [entryClMatch, entryName, hcl]
          have hmarm : entryMariaMatch w e = true := by
            simp [entryMariaMatch, entryName, hproc, hcl, hma]
          have hmys : entryMysqlMatch w e = false := by
            simp [entryMysqlMatch, entryName, hma]
          have henab := mariaTransformList_any_enabled e.data data2 hm
          simp only [henab]
          by_cases hen : e.data.any (fun r => r.enabled) = true
          · rw [if_pos hen]
            rw [addType_mem]
            by_cases ht : t = "mariadb" <;>
              simp [detects, hclm, hmarm, hmys, hen, ht]
          · rw [if_neg hen]
            simp only [Bool.not_eq_true] at hen
            simp [detects, hen]
      · rw [if_neg hma] at h
        by_cases hmy : MYSQL_MARKERS.any
            (fun m => strContains (e.filename.dropRight w.repofileSuffix.length) m) = true
        · rw [if_pos hmy] at h
          injection h with h2
          subst h2
          have hclm : entryClMatch w e = false := by
            simp [entryClMatch, entryName, hcl]
          have hmarm : entryMariaMatch w e = false := by
            simp [entryMariaMatch, entryName, hma]
          have hmym : entryMysqlMatch w e = true := by
            simp [entryMysqlMatch, entryName, hproc, hcl, hma, hmy]
          have henab : (e.data.map mysqlTransform).any (fun r => r.enabled) =
              e.data.any (fun r => r.enabled) := by
            rw [List.any_map]
            rfl
          unfold processMysqlFile
          simp only [henab]
          by_cases hen : e.data.any (fun r => r.enabled) = true
          · rw [if_pos hen]
            rw [addType_mem]
            by_cases ht : t = "mysql" <;>
              simp [detects, hclm, hmarm, hmym, hen, ht]
          · rw [if_neg hen]
            simp only [Bool.not_eq_true] at hen
            simp [detects, hen]
        · rw [if_neg hmy] at h
          injection h with h2
          subst h2
          have hd : detects w t e = false := by
            simp [detects, entryClMatch, entryMariaMatch, entryMysqlMatch,
              entryName, hcl, hma, hmy]
          simp [hd]

theorem processRepofile_countP (w : ActorWorld) (st st2 : PState)
    (e : RepoFileEntry) (h : processRepofile w st e = Except.ok st2) :
    st2.produced.countP isMysqlTypesMsg = st.produced.countP isMysqlTypesMsg ∧
    st2.custom_repo_msgs.countP isMysqlTypesMsg =
      st.custom_repo_msgs.countP isMysqlTypesMsg := by
  unfold processRepofile at h
  by_cases hskip : (strEndsWith e.filename w.leappCopySuffix ||
      !(strEndsWith e.filename w.repofileSuffix)) = true
  · rw [if_pos hskip] at h
    injection h with h2
    subst h2
    exact ⟨rfl, rfl⟩
  · rw [if_neg hskip] at h
    by_cases hcl : CL_MARKERS.any
        (fun m => strContains (e.filename.dropRight w.repofileSuffix.length) m) = true
    · rw [if_pos hcl] at h
      injection h with h2
      subst h2
      simp only [processClFile]
      constructor
      · split <;> simp [List.countP_append, isMysqlTypesMsg, List.countP_cons]
      · simp [List.countP_append]
        rintro a x hx - rfl
        rfl
    · rw [if_neg hcl] at h
      by_cases hma : MARIA_MARKERS.any
          (fun m => strContains (e.filename.dropRight w.repofileSuffix.length) m) = true
      · rw [if_pos hma] at h
        unfold processMariaFile at h
        cases hm : mariaTransformList e.data with
        | error msg => rw [hm] at h; cases h
        | ok data2 =>
          rw [hm] at h
          injection h with h2
          subst h2
          constructor
          · split <;> simp [List.countP_append, isMysqlTypesMsg, List.countP_cons]
          · simp [List.countP_append]
            rintro a x hx - rfl
            rfl
      · rw [if_neg hma] at h
        by_cases hmy : MYSQL_MARKERS.any
            (fun m => strContains (e.filename.dropRight w.repofileSuffix.length) m) = true
        · rw [if_pos hmy] at h
          injection h with h2
          subst h2
          simp only [processMysqlFile]
          constructor
          · rw [List.countP_append, List.countP_append]
            have hrep : (List.countP isMysqlTypesMsg
                (List.filterMap (fun r =>
                  if r.enabled && OLD_MYSQL_VERSIONS.any (fun v => strContains r.name v) then
                    some (Produced.report "An old MySQL version will no longer be available in EL8")
                  else none) (e.data.map mysqlTransform))) = 0 := by
              apply filterMap_countP_zero
              intro r m hr
              split at hr
              · injection hr with h3
                subst h3
                rfl
              · cases hr
            have hfile : (List.countP isMysqlTypesMsg
                (if (e.data.map mysqlTransform).any (fun r => r.enabled) = true then
                  [Produced.customRepoFile
                    (w.copyPath (e.filename.dropRight w.repofileSuffix.length))]
                else ([] : List Produced))) = 0 := by
              split <;> rfl
            omega
          · simp [List.countP_append]
            rintro a x hx - rfl
            rfl
        · rw [if_neg hmy] at h
          injection h with h2
          subst h2
          exact ⟨rfl, rfl⟩

theorem processRepofile_unmatched (w : ActorWorld) (st : PState) (e : RepoFileEntry)
    (h : entryAnyMatch w e = false) : processRepofile w st e = Except.ok st := by
  unfold processRepofile
  by_cases hskip : (strEndsWith e.filename w.leappCopySuffix ||
      !(strEndsWith e.filename w.repofileSuffix)) = true
  · rw [if_pos hskip]
  · rw [if_neg hskip]
    have hproc : entryProcessed w e = true := by
      unfold entryProcessed
      simp at hskip
      simp [hskip.1, hskip.2]
    simp only [entryAnyMatch, Bool.or_eq_false_iff] at h
    obtain ⟨⟨hclm, hmarm⟩, hmym⟩ := h
    have hcl : CL_MARKERS.any
        (fun m => strContains (e.filename.dropRight w.repofileSuffix.length) m) = false := by
      simp only [entryClMatch, entryName, hproc, Bool.true_and] at hclm
      exact hclm
    have hma : MARIA_MARKERS.any
        (fun m => strContains (e.filename.dropRight w.repofileSuffix.length) m) = false := by
      simp only [entryMariaMatch, entryName, hproc, hcl, Bool.true_and,
        Bool.not_false] at hmarm
      exact hmarm
    have hmy : MYSQL_MARKERS.any
        (fun m => strContains (e.filename.dropRight w.repofileSuffix.length) m) = false := by
      simp only [entryMysqlMatch, entryName, hproc, hcl, hma, Bool.true_and,
        Bool.not_false] at hmym
      exact hmym
    rw [if_neg (by simp [hcl]), if_neg (by simp [hma]), if_neg (by simp [hmy])]

theorem processFiles_types_mem (w : ActorWorld) (es : List RepoFileEntry)
    (st st2 : PState) (h : processFiles w st es = Except.ok st2) (t : String) :
    t ∈ st2.mysql_types ↔ t ∈ st.mysql_types ∨ es.any (detects w t) = true := by
  induction es generalizing st with
  | nil =>
    injection h with h2
    subst h2
    simp
  | cons e rest ih =>
    unfold processFiles at h
    cases hr : processRepofile w st e with
    | error msg => rw [hr] at h; cases h
    | ok st1 =>
      rw [hr] at h
      rw [ih st1 h, processRepofile_types_mem w st st1 e hr t]
      simp [or_assoc]

theorem processFiles_countP (w : ActorWorld) (es : List RepoFileEntry)
    (st st2 : PState) (h : processFiles w st es = Except.ok st2) :
    st2.produced.countP isMysqlTypesMsg = st.produced.countP isMysqlTypesMsg ∧
    st2.custom_repo_msgs.countP isMysqlTypesMsg =
      st.custom_repo_msgs.countP isMysqlTypesMsg := by
  induction es generalizing st with
  | nil =>
    injection h with h2
    subst h2
    exact ⟨rfl, rfl⟩
  | cons e rest ih =>
    unfold processFiles at h
    cases hr : processRepofile w st e with
    | error msg => rw [hr] at h; cases h
    | ok st1 =>
      rw [hr] at h
      obtain ⟨hp1, hc1⟩ := processRepofile_countP w st st1 e hr
      obtain ⟨hp2, hc2⟩ := ih st1 h
      exact ⟨hp2.trans hp1, hc2.trans hc1⟩

theorem processFiles_unmatched (w : ActorWorld) (es : List RepoFileEntry) (st : PState)
    (h : es.all (fun e => !(entryAnyMatch w e)) = true) :
    processFiles w st es = Except.ok st := by
  induction es with
  | nil => rfl
  | cons e rest ih =>
    simp only [List.all_cons, Bool.and_eq_true, Bool.not_eq_true'] at h
    unfold processFiles
    rw [processRepofile_unmatched w st e h.1]
    exact ih (by simp [h.2])

theorem detects_tag (w : ActorWorld) (t : String) (e : RepoFileEntry)
    (h : detects w t e = true) :
    t = "cloudlinux" ∨ t = "mariadb" ∨ t = "mysql" := by
  by_cases h1 : t = "cloudlinux"
  · exact Or.inl h1
  · by_cases h2 : t = "mariadb"
    · exact Or.inr (Or.inl h2)
    · by_cases h3 : t = "mysql"
      · exact Or.inr (Or.inr h3)
      · simp [detects, h1, h2, h3] at h

theorem finishProcess_countP (w : ActorWorld) (st : PState)
    (hp : st.produced.countP isMysqlTypesMsg = 0)
    (hc : st.custom_repo_msgs.countP isMysqlTypesMsg = 0) :
    (finishProcess w st).countP isMysqlTypesMsg = 1 ∧
    (finishProcess w st).getLast? =
      some (Produced.mysqlTypes st.mysql_types st.clmysql_type) := by
  have hone : ∀ l : List Produced, l.countP isMysqlTypesMsg = 0 →
      (l ++ [Produced.mysqlTypes st.mysql_types st.clmysql_type]).countP
        isMysqlTypesMsg = 1 ∧
      (l ++ [Produced.mysqlTypes st.mysql_types st.clmysql_type]).getLast? =
        some (Produced.mysqlTypes st.mysql_types st.clmysql_type) := by
    intro l hl
    constructor
    · simp [List.countP_append, hl, List.countP_cons, isMysqlTypesMsg]
    · simp
  simp only [finishProcess]
  apply hone
  repeat' split
  all_goals
    simp [List.countP_append, hp, hc, List.countP_cons, isMysqlTypesMsg]

/-- C10 (amended): whenever the actor run terminates normally — which
it does unless a MariaDB-marked repofile holds a repository whose
baseurl has no "yum" substring, a case in which `process()` raises
`IndexError` and produces nothing — exactly one `InstalledMySqlTypes`
message is produced, as the last production; its types list holds a tag
among cloudlinux/mariadb/mysql exactly when some processed repofile of
the corresponding family has an enabled repository; and when no
repofile matches any marker family it carries an empty types list and
no version. -/
theorem process_final_message (w : ActorWorld) (msgs : List Produced)
    (h : process w = Except.ok msgs) :
    msgs.countP isMysqlTypesMsg = 1 ∧
    ∃ ts v, msgs.getLast? = some (Produced.mysqlTypes ts v) ∧
      (∀ t, t ∈ ts ↔ w.repoDirListing.any (detects w t) = true) ∧
      (∀ t ∈ ts, t = "cloudlinux" ∨ t = "mariadb" ∨ t = "mysql") ∧
      (w.repoDirListing.all (fun e => !(entryAnyMatch w e)) = true →
        ts = [] ∧ v = none) := by
  unfold process at h
  cases hpf : processFiles w
      { mysql_types := [], clmysql_type := none,
        custom_repo_msgs := [], produced := [] } w.repoDirListing with
  | error msg => rw [hpf] at h; cases h
  | ok st =>
    rw [hpf] at h
    injection h with h2
    subst h2
    obtain ⟨hp, hc⟩ := processFiles_countP w _ _ _ hpf
    obtain ⟨hcount, hlast⟩ := finishProcess_countP w st hp hc
    refine ⟨hcount, st.mysql_types, st.clmysql_type, hlast, ?_, ?_, ?_⟩
    · intro t
      have hmem := processFiles_types_mem w _ _ _ hpf t
      simpa using hmem
    · intro t ht
      have hmem := (processFiles_types_mem w _ _ _ hpf t).mp ht
      simp at hmem
      obtain ⟨e, -, hd⟩ := hmem
      exact detects_tag w t e hd
    · intro hall
      have hid := processFiles_unmatched w w.repoDirListing
        { mysql_types := [], clmysql_type := none,
          custom_repo_msgs := [], produced := [] } hall
      rw [hpf] at hid
      injection hid with h3
      rw [h3]
      exact ⟨rfl, rfl⟩

/-- C10 counterexample: on the concrete input `wMariaCrash` — one
enabled MariaDB repository whose baseurl lacks a "yum" substring —
`process()` raises an uncaught `IndexError` at `url_parts[1]`
(line 114) and therefore produces no `InstalledMySqlTypes` message at
all, refuting "for every input". -/
theorem process_maria_crash_cex :
    process wMariaCrash = Except.error "list index out of range" := rfl

theorem process_final_message_witness :
    ([Produced.customRepoFile "/etc/leapp/repos/MariaDB_leapp.repo",
      Produced.report "MySQL database backup recommended",
      Produced.customRepo "mariadb-8" "MariaDB"
        "https://archive.mariadb.org/mariadb-10.3/yum/centos/8/x86_64" true,
      Produced.mysqlTypes ["mariadb"] none] : List Produced).countP
        isMysqlTypesMsg = 1 ∧
    ∃ ts v, ([Produced.customRepoFile "/etc/leapp/repos/MariaDB_leapp.repo",
      Produced.report "MySQL database backup recommended",
      Produced.customRepo "mariadb-8" "MariaDB"
        "https://archive.mariadb.org/mariadb-10.3/yum/centos/8/x86_64" true,
      Produced.mysqlTypes ["mariadb"] none] : List Produced).getLast? =
        some (Produced.mysqlTypes ts v) ∧
      (∀ t, t ∈ ts ↔ wMariaOk.repoDirListing.any (detects wMariaOk t) = true) ∧
      (∀ t ∈ ts, t = "cloudlinux" ∨ t = "mariadb" ∨ t = "mysql") ∧
      (wMariaOk.repoDirListing.all (fun e => !(entryAnyMatch wMariaOk e)) = true →
        ts = [] ∧ v = none) :=
  process_final_message wMariaOk
    [Produced.customRepoFile "/etc/leapp/repos/MariaDB_leapp.repo",
     Produced.report "MySQL database backup recommended",
     Produced.customRepo "mariadb-8" "MariaDB"
       "https://archive.mariadb.org/mariadb-10.3/yum/centos/8/x86_64" true,
     Produced.mysqlTypes ["mariadb"] none] rfl
